import Mathlib

/-!
Shallow embedding of `src/main.rs` of the bevy_rainbow repository: the tail
history buffer (`Player.push_tail_node`) and the ribbon mesh builder
(`get_normal`, `make_tail_indices`, `make_tail_mesh`).

The `f32` scalars of the source are modelled as exact reals.  The IEEE NaN
that `Vec2::normalize` produces on the zero vector (0/0) is modelled by
`Option.none`; over exact reals the normalization of `v` is NaN exactly when
`v.length = 0`, i.e. exactly when `v = 0`.
-/

set_option maxRecDepth 100000

/-- 2D vector with real components, modelling glam's `Vec2` (a pair of f32). -/
structure Vec2 where
  x : ℝ
  y : ℝ

instance : Add Vec2 where
  add a b := ⟨a.x + b.x, a.y + b.y⟩

instance : Sub Vec2 where
  sub a b := ⟨a.x - b.x, a.y - b.y⟩

/-- Scalar multiplication on the right, modelling glam's `Vec2 * f32`. -/
instance : HMul Vec2 ℝ Vec2 where
  hMul v s := ⟨v.x * s, v.y * s⟩

@[simp] theorem Vec2.add_x (a b : Vec2) : (a + b).x = a.x + b.x := rfl

@[simp] theorem Vec2.add_y (a b : Vec2) : (a + b).y = a.y + b.y := rfl

@[simp] theorem Vec2.sub_x (a b : Vec2) : (a - b).x = a.x - b.x := rfl

@[simp] theorem Vec2.sub_y (a b : Vec2) : (a - b).y = a.y - b.y := rfl

@[simp] theorem Vec2.smul_x (v : Vec2) (s : ℝ) : (v * s).x = v.x * s := rfl

@[simp] theorem Vec2.smul_y (v : Vec2) (s : ℝ) : (v * s).y = v.y * s := rfl

/-- glam `Vec2::length_squared`: `x*x + y*y`. -/
def Vec2.length_squared (v : Vec2) : ℝ := v.x * v.x + v.y * v.y

/-- glam `Vec2::length`: the square root of `length_squared`. -/
noncomputable def Vec2.length (v : Vec2) : ℝ := Real.sqrt v.length_squared

/-- glam `Vec2::distance_squared(self, other) = (self - other).length_squared()`. -/
def Vec2.distance_squared (a b : Vec2) : ℝ := (a - b).length_squared

/-- glam `Vec2::normalize`, dividing the vector by its length.  The 0/0 NaN
result (denominator zero, which over exact reals happens exactly for the zero
vector) is modelled by `none`. -/
noncomputable def Vec2.normalize (v : Vec2) : Option Vec2 :=
  if v.length = 0 then none
  else some ⟨v.x / v.length, v.y / v.length⟩

/-- `src/main.rs` `get_normal`: the velocity rotated by `(x, y) ↦ (y, -x)` and
normalized; if the normalization is NaN (`none`) the components are reset to
zero, which `Option.getD` with default `⟨0, 0⟩` expresses. -/
noncomputable def get_normal (velocity : Vec2) : Vec2 :=
  (Vec2.normalize ⟨velocity.y, -velocity.x⟩).getD ⟨0, 0⟩

/-- `src/main.rs` `TailNode`: one recorded sample of the tail history. -/
structure TailNode where
  pos : Vec2
  velocity : Vec2

/-- `src/main.rs` `const TAIL_LEN: usize = 32`. -/
abbrev TAIL_LEN : Nat := 32

/-- `src/main.rs` `const SIZE: f32 = 100.`. -/
noncomputable def SIZE : ℝ := 100

/-- `src/main.rs` `Player`: the fixed-size tail history buffer owner. -/
structure Player where
  size : ℝ
  tail : Fin TAIL_LEN → TailNode

/-- `src/main.rs` `Player::push_tail_node`.  The velocity is
`pos - tail[0].pos`, overwritten with `tail[0].velocity` when
`pos.distance_squared(tail[0].pos) < 2.`; the reverse loop
`for i in (1..TAIL_LEN).rev() { tail[i] = tail[i-1] }` followed by
`tail[0] = new_node` nets to the shift written here. -/
noncomputable def Player.push_tail_node (p : Player) (pos : Vec2) : Player :=
  let velocity :=
    if Vec2.distance_squared pos (p.tail 0).pos < 2 then (p.tail 0).velocity
    else pos - (p.tail 0).pos
  let new_node : TailNode := ⟨pos, velocity⟩
  { p with
    tail := fun i =>
      if (i : Nat) = 0 then new_node
      else p.tail ⟨(i : Nat) - 1, Nat.lt_of_le_of_lt (Nat.sub_le _ _) i.isLt⟩ }

/-- The all-zero initial buffer from `setup`:
`Player { size: SIZE, tail: [TailNode::default(); TAIL_LEN] }`. -/
noncomputable def player0 : Player := ⟨SIZE, fun _ => ⟨⟨0, 0⟩, ⟨0, 0⟩⟩⟩

/-- The newest sample written by a push, read back from slot 0. -/
theorem push_tail_node_zero (p : Player) (pos : Vec2) :
    (p.push_tail_node pos).tail 0 =
      ⟨pos,
       if Vec2.distance_squared pos (p.tail 0).pos < 2 then (p.tail 0).velocity
       else pos - (p.tail 0).pos⟩ := rfl

/-- C1: after `push_tail_node p pos`, slot 0 holds position `pos`, every slot
`i` of the old buffer is moved to slot `i+1` (so the old slot `TAIL_LEN - 1`
is discarded), and the buffer still holds exactly `TAIL_LEN = 32` samples. -/
theorem c1_push_shifts_samples (p : Player) (pos : Vec2) :
    ((p.push_tail_node pos).tail 0).pos = pos ∧
    (∀ i : Nat, (h : i + 1 < TAIL_LEN) →
      (p.push_tail_node pos).tail ⟨i + 1, h⟩ = p.tail ⟨i, by omega⟩) ∧
    (List.ofFn (p.push_tail_node pos).tail).length = TAIL_LEN ∧ TAIL_LEN = 32 := by
  refine ⟨rfl, fun i h => rfl, ?_, rfl⟩
  simp

/-- Witness for C1 at the all-zero buffer, `pos = (5, 6)` and slot `i = 3`. -/
theorem c1_push_shifts_samples_witness :
    3 + 1 < TAIL_LEN ∧
    (player0.push_tail_node ⟨5, 6⟩).tail ⟨3 + 1, by decide⟩ = player0.tail ⟨3, by decide⟩ :=
  ⟨by decide, (c1_push_shifts_samples player0 ⟨5, 6⟩).2.1 3 (by decide)⟩

/-- C2: the velocity stored by a push is the previous `tail[0].velocity` when
the squared distance to the previous `tail[0].pos` is below the threshold `2`,
and `pos - tail[0].pos` otherwise. -/
theorem c2_push_velocity (p : Player) (pos : Vec2) :
    (Vec2.distance_squared pos (p.tail 0).pos < 2 →
      ((p.push_tail_node pos).tail 0).velocity = (p.tail 0).velocity) ∧
    (¬ Vec2.distance_squared pos (p.tail 0).pos < 2 →
      ((p.push_tail_node pos).tail 0).velocity = pos - (p.tail 0).pos) := by
  rw [push_tail_node_zero]
  constructor
  · intro h
    simp only [if_pos h]
  · intro h
    simp only [if_neg h]

/-- Witness for C2 at the all-zero buffer: `pos = (1, 0)` is within the
anti-jitter threshold and keeps the old zero velocity, `pos = (3, 0)` is not
and stores the difference vector. -/
theorem c2_push_velocity_witness :
    (Vec2.distance_squared ⟨1, 0⟩ (player0.tail 0).pos < 2 ∧
      ((player0.push_tail_node ⟨1, 0⟩).tail 0).velocity = (player0.tail 0).velocity) ∧
    (¬ Vec2.distance_squared ⟨3, 0⟩ (player0.tail 0).pos < 2 ∧
      ((player0.push_tail_node ⟨3, 0⟩).tail 0).velocity = ⟨3, 0⟩ - (player0.tail 0).pos) := by
  have h1 : Vec2.distance_squared ⟨1, 0⟩ (player0.tail 0).pos < 2 := by
    norm_num [Vec2.distance_squared, Vec2.length_squared, player0]
  have h2 : ¬ Vec2.distance_squared ⟨3, 0⟩ (player0.tail 0).pos < 2 := by
    norm_num [Vec2.distance_squared, Vec2.length_squared, player0]
  exact ⟨⟨h1, (c2_push_velocity player0 ⟨1, 0⟩).1 h1⟩,
         ⟨h2, (c2_push_velocity player0 ⟨3, 0⟩).2 h2⟩⟩

/-- A nonzero vector divided componentwise by its length has unit length. -/
theorem unit_of_normalized (w : Vec2) (hw : w.length ≠ 0) :
    (Vec2.mk (w.x / w.length) (w.y / w.length)).length = 1 := by
  have hs : 0 ≤ w.length_squared :=
    add_nonneg (mul_self_nonneg w.x) (mul_self_nonneg w.y)
  have hsne : w.length_squared ≠ 0 := fun h => hw (by simp [Vec2.length, h])
  have hmul : w.length * w.length = w.length_squared := Real.mul_self_sqrt hs
  have key : (Vec2.mk (w.x / w.length) (w.y / w.length)).length_squared = 1 := by
    simp only [Vec2.length_squared] at hmul ⊢
    field_simp
    linarith [hmul]
  show Real.sqrt (Vec2.mk (w.x / w.length) (w.y / w.length)).length_squared = 1
  rw [key, Real.sqrt_one]

/-- C3: `get_normal` never propagates the NaN of normalizing the zero vector:
on input `(0, 0)` it returns exactly `(0, 0)`, and on every input it returns
either the zero vector or a unit vector (so never a NaN component). -/
theorem c3_get_normal_no_nan :
    get_normal ⟨0, 0⟩ = ⟨0, 0⟩ ∧
    ∀ v : Vec2, get_normal v = ⟨0, 0⟩ ∨ (get_normal v).length = 1 := by
  constructor
  · simp [get_normal, Vec2.normalize, Vec2.length, Vec2.length_squared]
  · intro v
    by_cases h : (Vec2.mk v.y (-v.x)).length = 0
    · left
      simp [get_normal, Vec2.normalize, h]
    · right
      simp only [get_normal, Vec2.normalize, if_neg h, Option.getD_some]
      exact unit_of_normalized ⟨v.y, -v.x⟩ h

/-- `get_normal` of the eastward velocity `(1, 0)` is `(0, -1)`. -/
theorem get_normal_east : get_normal ⟨1, 0⟩ = ⟨0, -1⟩ := by
  have hlen : (Vec2.mk 0 (-1)).length = 1 := by
    norm_num [Vec2.length, Vec2.length_squared]
  norm_num [get_normal, Vec2.normalize, hlen, Vec2.mk.injEq]

/-- Modelled from the spec's words for C6: rotate the velocity 90 degrees
counter-clockwise, `(x, y) ↦ (-y, x)`, then normalize to unit length. -/
noncomputable def ccw_normalized_spec (v : Vec2) : Vec2 :=
  ⟨(-v.y) / (Vec2.mk (-v.y) v.x).length, v.x / (Vec2.mk (-v.y) v.x).length⟩

/-- C6 counterexample: at the nonzero velocity `(1, 0)`, `get_normal` returns
`(0, -1)`, while the 90-degree counter-clockwise rotation normalized would be
`(0, 1)`: the code rotates clockwise, not counter-clockwise. -/
theorem c6_ccw_counterexample :
    Vec2.mk 1 0 ≠ ⟨0, 0⟩ ∧ get_normal ⟨1, 0⟩ ≠ ccw_normalized_spec ⟨1, 0⟩ := by
  constructor
  · intro h
    have hx := congrArg Vec2.x h
    norm_num at hx
  · have h1 : ccw_normalized_spec ⟨1, 0⟩ = ⟨0, 1⟩ := by
      have hlen : (Vec2.mk 0 1).length = 1 := by
        norm_num [Vec2.length, Vec2.length_squared]
      norm_num [ccw_normalized_spec, hlen, Vec2.mk.injEq]
    rw [get_normal_east, h1]
    intro h
    have hy := congrArg Vec2.y h
    norm_num at hy

/-- C6 (amended): for every non-zero velocity `v`, `get_normal v` equals `v`
rotated 90 degrees clockwise, `(x, y) ↦ (y, -x)`, normalized to unit length. -/
theorem c6_cw_normal (v : Vec2) (hv : v ≠ ⟨0, 0⟩) :
    get_normal v =
      ⟨v.y / (Vec2.mk v.y (-v.x)).length, (-v.x) / (Vec2.mk v.y (-v.x)).length⟩ ∧
    (get_normal v).length = 1 := by
  have hxy : v.x ≠ 0 ∨ v.y ≠ 0 := by
    by_contra hc
    push_neg at hc
    apply hv
    cases v
    simp_all
  have hs : 0 < (Vec2.mk v.y (-v.x)).length_squared := by
    simp only [Vec2.length_squared]
    rcases hxy with hx | hy
    · nlinarith [mul_self_pos.mpr hx, mul_self_nonneg v.y]
    · nlinarith [mul_self_pos.mpr hy, mul_self_nonneg v.x]
  have hlen : (Vec2.mk v.y (-v.x)).length ≠ 0 := by
    simp only [Vec2.length]
    exact ne_of_gt (Real.sqrt_pos.mpr hs)
  have hgn : get_normal v =
      ⟨v.y / (Vec2.mk v.y (-v.x)).length, (-v.x) / (Vec2.mk v.y (-v.x)).length⟩ := by
    simp only [get_normal, Vec2.normalize, if_neg hlen, Option.getD_some]
  refine ⟨hgn, ?_⟩
  rw [hgn]
  exact unit_of_normalized ⟨v.y, -v.x⟩ hlen

/-- Witness for the amended C6 at the nonzero velocity `(1, 0)`. -/
theorem c6_cw_normal_witness :
    Vec2.mk 1 0 ≠ ⟨0, 0⟩ ∧ (get_normal ⟨1, 0⟩).length = 1 := by
  have hne : Vec2.mk 1 0 ≠ ⟨0, 0⟩ := by
    intro h
    have hx := congrArg Vec2.x h
    norm_num at hx
  exact ⟨hne, (c6_cw_normal ⟨1, 0⟩ hne).2⟩

/-- `src/main.rs` `type Vertice = ([f32; 3], [f32; 3], [f32; 2])`. -/
abbrev Vertice : Type := (ℝ × ℝ × ℝ) × (ℝ × ℝ × ℝ) × (ℝ × ℝ)

/-- `src/main.rs` `vec2_to_array_3`. -/
def vec2_to_array_3 (vec : Vec2) : ℝ × ℝ × ℝ := (vec.x, vec.y, 0)

/-- The attribute buffers of a bevy `Mesh` that the program writes: positions,
normals, UVs, the index list and the scalar `Vertex_X` attribute. -/
structure Mesh where
  positions : List (ℝ × ℝ × ℝ)
  normals : List (ℝ × ℝ × ℝ)
  uvs : List (ℝ × ℝ)
  indices : List Nat
  vertex_x : List ℝ

/-- `src/main.rs` `modify_mesh`: splits the vertices into the three attribute
lists and overwrites them and the index list on the mesh. -/
def modify_mesh (mesh : Mesh) (vertices : List Vertice) (indices : List Nat) : Mesh :=
  { mesh with
    indices := indices
    positions := vertices.map fun v => v.1
    normals := vertices.map fun v => v.2.1
    uvs := vertices.map fun v => v.2.2 }

/-- The triangles pushed by the first loop of `make_tail_indices`:
`for i in 0..TAIL_LEN-1` push `(i, i+1, 2i+TAIL_LEN)` and
`(i+1, 2i+TAIL_LEN, 2i+TAIL_LEN+1)`. -/
def tail_main_triangles : List (Nat × Nat × Nat) :=
  (List.range (TAIL_LEN - 1)).flatMap fun i =>
    [(i, i + 1, 2 * i + TAIL_LEN), (i + 1, 2 * i + TAIL_LEN, 2 * i + TAIL_LEN + 1)]

/-- The triangles pushed by the second loop of `make_tail_indices`:
`for i in 1..TAIL_LEN-1` push `(i, 2i+TAIL_LEN-1, 2i+TAIL_LEN)`. -/
def tail_seam_triangles : List (Nat × Nat × Nat) :=
  (List.range' 1 (TAIL_LEN - 2)).map fun i => (i, 2 * i + TAIL_LEN - 1, 2 * i + TAIL_LEN)

/-- `src/main.rs` `make_tail_indices`: both triangle lists flattened, each
component cast `as u16` (modelled by `% 65536`). -/
def make_tail_indices : List Nat :=
  (tail_main_triangles ++ tail_seam_triangles).flatMap fun t =>
    [t.1 % 65536, t.2.1 % 65536, t.2.2 % 65536]

/-- The `main_tail` array of `make_tail_mesh`: the sample positions. -/
def main_tail (p : Player) (i : Fin TAIL_LEN) : Vec2 := (p.tail i).pos

/-- The `sub_tail` array of `make_tail_mesh`.  The source loop over samples
`i` writes `sub_tail[0]` at `i = 0`, `sub_tail[2i-1]` (previous sample's
normal) and `sub_tail[2i]` (own normal) for interior `i`, and `sub_tail[2i-1]`
(own normal) at `i = TAIL_LEN-1`; slot `j` is therefore written exactly once,
by the case distinction below. -/
noncomputable def sub_tail (p : Player) (j : Fin ((TAIL_LEN - 1) * 2)) : Vec2 :=
  if j.val = 0 then
    main_tail p 0 + get_normal (p.tail 0).velocity * SIZE
  else if j.val % 2 = 1 then
    if (j.val + 1) / 2 = TAIL_LEN - 1 then
      main_tail p ⟨(j.val + 1) / 2, by have hj := j.isLt; omega⟩ +
        get_normal (p.tail ⟨(j.val + 1) / 2, by have hj := j.isLt; omega⟩).velocity * SIZE
    else
      main_tail p ⟨(j.val + 1) / 2, by have hj := j.isLt; omega⟩ +
        get_normal (p.tail ⟨(j.val + 1) / 2 - 1, by have hj := j.isLt; omega⟩).velocity * SIZE
  else
    main_tail p ⟨j.val / 2, by have hj := j.isLt; omega⟩ +
      get_normal (p.tail ⟨j.val / 2, by have hj := j.isLt; omega⟩).velocity * SIZE

/-- Entry `k` of the `vertices` array of `make_tail_mesh`: position from
`main_tail` for `k < TAIL_LEN`, from `sub_tail` shifted by `TAIL_LEN`
otherwise; normal and UV keep the initializer `([0,0,1], [0,0])`. -/
noncomputable def vertexAt (p : Player)
    (k : Fin ((TAIL_LEN - 1) * 4 - (TAIL_LEN - 2))) : Vertice :=
  if h : k.val < TAIL_LEN then
    (vec2_to_array_3 (main_tail p ⟨k.val, h⟩), (0, 0, 1), (0, 0))
  else
    (vec2_to_array_3 (sub_tail p ⟨k.val - TAIL_LEN, by have hk := k.isLt; omega⟩),
      (0, 0, 1), (0, 0))

/-- The vertex buffer of `make_tail_mesh` as a list. -/
noncomputable def tailMeshVertices (p : Player) : List Vertice := List.ofFn (vertexAt p)

/-- Entry `k` of the `colors` vector of `make_tail_mesh`: `1.0` on the
`main_tail` (centerline) entries, `0.0` on the `sub_tail` (offset) entries. -/
noncomputable def colorAt (k : Fin ((TAIL_LEN - 1) * 4 - (TAIL_LEN - 2))) : ℝ :=
  if k.val < TAIL_LEN then 1 else 0

/-- The `colors` vector of `make_tail_mesh` as a list. -/
noncomputable def tailMeshColors : List ℝ := List.ofFn colorAt

/-- `src/main.rs` `make_tail_mesh`: `modify_mesh` with the tail vertices and
indices, then the scalar `Vertex_X` attribute set to the colors. -/
noncomputable def make_tail_mesh (mesh : Mesh) (p : Player) : Mesh :=
  { modify_mesh mesh (tailMeshVertices p) make_tail_indices with
    vertex_x := tailMeshColors }

theorem tailMeshVertices_length (p : Player) :
    (tailMeshVertices p).length = (TAIL_LEN - 1) * 4 - (TAIL_LEN - 2) := by
  simp only [tailMeshVertices, List.length_ofFn]

/-- C5 counterexample: the index list of the mesh builder has 276 entries,
not `6 * TAIL_LEN - 12 = 180` as claimed. -/
theorem c5_index_count_counterexample :
    ¬ make_tail_indices.length = 6 * TAIL_LEN - 12 := by decide

/-- C5 (amended): the mesh builder returns exactly `3 * TAIL_LEN - 2` vertices
and the index list has exactly `9 * TAIL_LEN - 12 = 276` entries, the main
loop contributing `2 * (TAIL_LEN - 1)` triangles and the seam loop
`TAIL_LEN - 2` triangles, each triangle contributing 3 indices. -/
theorem c5_mesh_counts (mesh : Mesh) (p : Player) :
    (make_tail_mesh mesh p).positions.length = 3 * TAIL_LEN - 2 ∧
    (make_tail_mesh mesh p).indices.length = 9 * TAIL_LEN - 12 ∧
    tail_main_triangles.length = 2 * (TAIL_LEN - 1) ∧
    tail_seam_triangles.length = TAIL_LEN - 2 ∧
    make_tail_indices.length = 3 * (tail_main_triangles.length + tail_seam_triangles.length) := by
  refine ⟨?_, ?_, by decide, by decide, by decide⟩
  · simp only [make_tail_mesh, modify_mesh, tailMeshVertices, List.length_map,
      List.length_ofFn]
    decide
  · exact (by decide : make_tail_indices.length = 9 * TAIL_LEN - 12)

/-- C8: the mesh builder is deterministic in the buffer contents and fully
overwrites every attribute, so running it twice on the same unchanged buffer
leaves the very same mesh (positions, normals, UVs, scalar weights, indices). -/
theorem c8_builder_idempotent (mesh : Mesh) (p : Player) :
    make_tail_mesh (make_tail_mesh mesh p) p = make_tail_mesh mesh p := rfl

/-- Modelled from the spec's words for C7, with its half-open ranges read
literally: a triangle of the main loop for `i` in `[0, TAIL_LEN-2)` or a seam
triangle for `i` in `[1, TAIL_LEN-2)`. -/
def c7_claimed_form (t : Nat × Nat × Nat) : Prop :=
  (∃ i ∈ List.range (TAIL_LEN - 2),
     t = (i, i + 1, 2 * i + TAIL_LEN) ∨ t = (i + 1, 2 * i + TAIL_LEN, 2 * i + TAIL_LEN + 1)) ∨
  (∃ i ∈ List.range' 1 (TAIL_LEN - 3), t = (i, 2 * i + TAIL_LEN - 1, 2 * i + TAIL_LEN))

/-- C7 counterexample: the triangle `(30, 31, 92)` is emitted (by the main
loop at `i = 30 = TAIL_LEN - 2`) but is covered by neither half-open range of
the claim, so "no other triangles are emitted" fails as stated. -/
theorem c7_range_counterexample :
    ((30 : Nat), (31 : Nat), (92 : Nat)) ∈ tail_main_triangles ++ tail_seam_triangles ∧
    ¬ c7_claimed_form (30, 31, 92) := by
  simp only [c7_claimed_form]
  decide

/-- C7 (amended): the triangle list is a pure function of `TAIL_LEN` alone;
for each `i` in `[0, TAIL_LEN-1)` it contains `(i, i+1, 2i+TAIL_LEN)` and
`(i+1, 2i+TAIL_LEN, 2i+TAIL_LEN+1)`, for each `i` in `[1, TAIL_LEN-1)` one
seam triangle `(i, 2i+TAIL_LEN-1, 2i+TAIL_LEN)`, and no other triangles. -/
theorem c7_triangle_topology :
    (∀ i ∈ List.range (TAIL_LEN - 1),
       (i, i + 1, 2 * i + TAIL_LEN) ∈ tail_main_triangles ∧
       (i + 1, 2 * i + TAIL_LEN, 2 * i + TAIL_LEN + 1) ∈ tail_main_triangles) ∧
    (∀ i ∈ List.range' 1 (TAIL_LEN - 2),
       (i, 2 * i + TAIL_LEN - 1, 2 * i + TAIL_LEN) ∈ tail_seam_triangles) ∧
    (∀ t ∈ tail_main_triangles, ∃ i ∈ List.range (TAIL_LEN - 1),
       t = (i, i + 1, 2 * i + TAIL_LEN) ∨ t = (i + 1, 2 * i + TAIL_LEN, 2 * i + TAIL_LEN + 1)) ∧
    (∀ t ∈ tail_seam_triangles, ∃ i ∈ List.range' 1 (TAIL_LEN - 2),
       t = (i, 2 * i + TAIL_LEN - 1, 2 * i + TAIL_LEN)) ∧
    make_tail_indices =
      (tail_main_triangles ++ tail_seam_triangles).flatMap fun t =>
        [t.1 % 65536, t.2.1 % 65536, t.2.2 % 65536] :=
  ⟨by decide, by decide, by decide, by decide, rfl⟩

/-- Witness for the amended C7 at `i = 5`. -/
theorem c7_triangle_topology_witness :
    5 ∈ List.range (TAIL_LEN - 1) ∧
    (5, 5 + 1, 2 * 5 + TAIL_LEN) ∈ tail_main_triangles :=
  ⟨by decide, (c7_triangle_topology.1 5 (by decide)).1⟩

/-- C10: every index emitted by `make_tail_indices` is strictly below the
vertex-buffer length `3 * TAIL_LEN - 2 = 94`, and below `65536`; the
`as u16` cast (`% 65536`) therefore loses nothing. -/
theorem c10_indices_in_bounds (p : Player) :
    (∀ x ∈ make_tail_indices, x < (tailMeshVertices p).length ∧ x < 65536) ∧
    make_tail_indices =
      (tail_main_triangles ++ tail_seam_triangles).flatMap fun t =>
        [t.1, t.2.1, t.2.2] := by
  constructor
  · rw [tailMeshVertices_length]
    decide
  · decide

/-- Witness for C10: the first emitted index, `0`, is in bounds. -/
theorem c10_indices_in_bounds_witness :
    0 ∈ make_tail_indices ∧ 0 < (tailMeshVertices player0).length :=
  ⟨by decide, ((c10_indices_in_bounds player0).1 0 (by decide)).1⟩

theorem tailMeshVertices_get (p : Player) (k : Nat)
    (hk : k < (TAIL_LEN - 1) * 4 - (TAIL_LEN - 2)) (hl : k < (tailMeshVertices p).length) :
    (tailMeshVertices p).get ⟨k, hl⟩ = vertexAt p ⟨k, hk⟩ :=
  List.get_ofFn (vertexAt p) ⟨k, hl⟩

theorem sub_tail_odd (p : Player) (i : Nat) (h1 : 1 ≤ i) (h2 : i < TAIL_LEN - 1)
    (hj : 2 * i - 1 < (TAIL_LEN - 1) * 2) :
    sub_tail p ⟨2 * i - 1, hj⟩ =
      main_tail p ⟨i, by omega⟩ + get_normal (p.tail ⟨i - 1, by omega⟩).velocity * SIZE := by
  simp only [sub_tail]
  rw [if_neg (show ¬ ((⟨2 * i - 1, hj⟩ : Fin ((TAIL_LEN - 1) * 2)).val = 0) from
        (by omega : ¬ (2 * i - 1 = 0)))]
  rw [if_pos (show (⟨2 * i - 1, hj⟩ : Fin ((TAIL_LEN - 1) * 2)).val % 2 = 1 from
        (by omega : (2 * i - 1) % 2 = 1))]
  have hval : ((⟨2 * i - 1, hj⟩ : Fin ((TAIL_LEN - 1) * 2)).val + 1) / 2 = i :=
    (by omega : (2 * i - 1 + 1) / 2 = i)
  simp only [hval]
  rw [if_neg (show ¬ (i = TAIL_LEN - 1) from by omega)]

theorem sub_tail_even (p : Player) (i : Nat) (h1 : 1 ≤ i) (h2 : i < TAIL_LEN - 1)
    (hj : 2 * i < (TAIL_LEN - 1) * 2) :
    sub_tail p ⟨2 * i, hj⟩ =
      main_tail p ⟨i, by omega⟩ + get_normal (p.tail ⟨i, by omega⟩).velocity * SIZE := by
  simp only [sub_tail]
  rw [if_neg (show ¬ ((⟨2 * i, hj⟩ : Fin ((TAIL_LEN - 1) * 2)).val = 0) from
        (by omega : ¬ (2 * i = 0)))]
  rw [if_neg (show ¬ ((⟨2 * i, hj⟩ : Fin ((TAIL_LEN - 1) * 2)).val % 2 = 1) from
        (by omega : ¬ ((2 * i) % 2 = 1)))]
  have hval : (⟨2 * i, hj⟩ : Fin ((TAIL_LEN - 1) * 2)).val / 2 = i :=
    (by omega : 2 * i / 2 = i)
  simp only [hval]

theorem sub_tail_last (p : Player) (hj : 2 * TAIL_LEN - 3 < (TAIL_LEN - 1) * 2) :
    sub_tail p ⟨2 * TAIL_LEN - 3, hj⟩ =
      main_tail p ⟨TAIL_LEN - 1, by decide⟩ +
        get_normal (p.tail ⟨TAIL_LEN - 1, by decide⟩).velocity * SIZE := by
  simp only [sub_tail]
  rw [if_neg (show ¬ ((⟨2 * TAIL_LEN - 3, hj⟩ : Fin ((TAIL_LEN - 1) * 2)).val = 0) from
        (by decide : ¬ (2 * TAIL_LEN - 3 = 0)))]
  rw [if_pos (show (⟨2 * TAIL_LEN - 3, hj⟩ : Fin ((TAIL_LEN - 1) * 2)).val % 2 = 1 from
        (by decide : (2 * TAIL_LEN - 3) % 2 = 1))]
  have hval : ((⟨2 * TAIL_LEN - 3, hj⟩ : Fin ((TAIL_LEN - 1) * 2)).val + 1) / 2 = TAIL_LEN - 1 :=
    (by decide : (2 * TAIL_LEN - 3 + 1) / 2 = TAIL_LEN - 1)
  simp only [hval]
  rw [if_pos trivial]

/-- C4: the vertex buffer has `3 * TAIL_LEN - 2` entries; entries `0` to
`TAIL_LEN - 1` carry the raw centerline sample positions, entry `TAIL_LEN` is
the tip offset `centerline[0] + normal[0] * SIZE`, the interior sample `i`
contributes the pair `centerline[i] + normal[i-1] * SIZE` (at `TAIL_LEN+2i-1`)
and `centerline[i] + normal[i] * SIZE` (at `TAIL_LEN+2i`), and the last entry
`3 * TAIL_LEN - 3` is `centerline[TAIL_LEN-1] + normal[TAIL_LEN-1] * SIZE`. -/
theorem c4_vertex_layout (p : Player) :
    (tailMeshVertices p).length = 3 * TAIL_LEN - 2 ∧
    (∀ i : Nat, (h : i < TAIL_LEN) → (hl : i < (tailMeshVertices p).length) →
      ((tailMeshVertices p).get ⟨i, hl⟩).1 = vec2_to_array_3 (p.tail ⟨i, h⟩).pos) ∧
    (∀ hl : TAIL_LEN < (tailMeshVertices p).length,
      ((tailMeshVertices p).get ⟨TAIL_LEN, hl⟩).1 =
        vec2_to_array_3 ((p.tail 0).pos + get_normal (p.tail 0).velocity * SIZE)) ∧
    (∀ i : Nat, (h1 : 1 ≤ i) → (h2 : i < TAIL_LEN - 1) →
      ∀ hl1 : TAIL_LEN + (2 * i - 1) < (tailMeshVertices p).length,
      ((tailMeshVertices p).get ⟨TAIL_LEN + (2 * i - 1), hl1⟩).1 =
        vec2_to_array_3 ((p.tail ⟨i, by omega⟩).pos +
          get_normal (p.tail ⟨i - 1, by omega⟩).velocity * SIZE)) ∧
    (∀ i : Nat, (h1 : 1 ≤ i) → (h2 : i < TAIL_LEN - 1) →
      ∀ hl2 : TAIL_LEN + 2 * i < (tailMeshVertices p).length,
      ((tailMeshVertices p).get ⟨TAIL_LEN + 2 * i, hl2⟩).1 =
        vec2_to_array_3 ((p.tail ⟨i, by omega⟩).pos +
          get_normal (p.tail ⟨i, by omega⟩).velocity * SIZE)) ∧
    (∀ hl : 3 * TAIL_LEN - 3 < (tailMeshVertices p).length,
      ((tailMeshVertices p).get ⟨3 * TAIL_LEN - 3, hl⟩).1 =
        vec2_to_array_3 ((p.tail ⟨TAIL_LEN - 1, by decide⟩).pos +
          get_normal (p.tail ⟨TAIL_LEN - 1, by decide⟩).velocity * SIZE)) := by
  refine ⟨by rw [tailMeshVertices_length]; decide, ?_, ?_, ?_, ?_, ?_⟩
  · intro i h hl
    have hk : i < (TAIL_LEN - 1) * 4 - (TAIL_LEN - 2) := by
      have hc := hl; rwa [tailMeshVertices_length] at hc
    rw [tailMeshVertices_get p i hk hl]
    simp only [vertexAt]
    rw [dif_pos (show (⟨i, hk⟩ : Fin ((TAIL_LEN - 1) * 4 - (TAIL_LEN - 2))).val < TAIL_LEN
          from h)]
    rfl
  · intro hl
    have hk : TAIL_LEN < (TAIL_LEN - 1) * 4 - (TAIL_LEN - 2) := by
      have hc := hl; rwa [tailMeshVertices_length] at hc
    rw [tailMeshVertices_get p TAIL_LEN hk hl]
    rfl
  · intro i h1 h2 hl1
    have hk : TAIL_LEN + (2 * i - 1) < (TAIL_LEN - 1) * 4 - (TAIL_LEN - 2) := by
      have hc := hl1; rwa [tailMeshVertices_length] at hc
    rw [tailMeshVertices_get p (TAIL_LEN + (2 * i - 1)) hk hl1]
    simp only [vertexAt]
    rw [dif_neg (show ¬ ((⟨TAIL_LEN + (2 * i - 1), hk⟩ :
          Fin ((TAIL_LEN - 1) * 4 - (TAIL_LEN - 2))).val < TAIL_LEN)
          from (by omega : ¬ (TAIL_LEN + (2 * i - 1) < TAIL_LEN)))]
    have hval : (⟨TAIL_LEN + (2 * i - 1), hk⟩ :
        Fin ((TAIL_LEN - 1) * 4 - (TAIL_LEN - 2))).val - TAIL_LEN = 2 * i - 1 :=
      (by omega : TAIL_LEN + (2 * i - 1) - TAIL_LEN = 2 * i - 1)
    simp only [hval]
    rw [sub_tail_odd p i h1 h2]
    rfl
  · intro i h1 h2 hl2
    have hk : TAIL_LEN + 2 * i < (TAIL_LEN - 1) * 4 - (TAIL_LEN - 2) := by
      have hc := hl2; rwa [tailMeshVertices_length] at hc
    rw [tailMeshVertices_get p (TAIL_LEN + 2 * i) hk hl2]
    simp only [vertexAt]
    rw [dif_neg (show ¬ ((⟨TAIL_LEN + 2 * i, hk⟩ :
          Fin ((TAIL_LEN - 1) * 4 - (TAIL_LEN - 2))).val < TAIL_LEN)
          from (by omega : ¬ (TAIL_LEN + 2 * i < TAIL_LEN)))]
    have hval : (⟨TAIL_LEN + 2 * i, hk⟩ :
        Fin ((TAIL_LEN - 1) * 4 - (TAIL_LEN - 2))).val - TAIL_LEN = 2 * i :=
      (by omega : TAIL_LEN + 2 * i - TAIL_LEN = 2 * i)
    simp only [hval]
    rw [sub_tail_even p i h1 h2]
    rfl
  · intro hl
    have hk : 3 * TAIL_LEN - 3 < (TAIL_LEN - 1) * 4 - (TAIL_LEN - 2) := by
      have hc := hl; rwa [tailMeshVertices_length] at hc
    rw [tailMeshVertices_get p (3 * TAIL_LEN - 3) hk hl]
    simp only [vertexAt]
    rw [dif_neg (show ¬ ((⟨3 * TAIL_LEN - 3, hk⟩ :
          Fin ((TAIL_LEN - 1) * 4 - (TAIL_LEN - 2))).val < TAIL_LEN)
          from (by decide : ¬ (3 * TAIL_LEN - 3 < TAIL_LEN)))]
    have hval : (⟨3 * TAIL_LEN - 3, hk⟩ :
        Fin ((TAIL_LEN - 1) * 4 - (TAIL_LEN - 2))).val - TAIL_LEN = 2 * TAIL_LEN - 3 :=
      (by decide : 3 * TAIL_LEN - 3 - TAIL_LEN = 2 * TAIL_LEN - 3)
    simp only [hval]
    rw [sub_tail_last p]
    rfl

/-- Witness for C4 at the all-zero buffer and interior sample `i = 1`. -/
theorem c4_vertex_layout_witness :
    1 ≤ 1 ∧ 1 < TAIL_LEN - 1 ∧
    TAIL_LEN + (2 * 1 - 1) < (tailMeshVertices player0).length ∧
    ((tailMeshVertices player0).get
        ⟨TAIL_LEN + (2 * 1 - 1), by rw [tailMeshVertices_length]; decide⟩).1 =
      vec2_to_array_3 ((player0.tail ⟨1, by decide⟩).pos +
        get_normal (player0.tail ⟨1 - 1, by decide⟩).velocity * SIZE) := by
  have hl : TAIL_LEN + (2 * 1 - 1) < (tailMeshVertices player0).length := by
    rw [tailMeshVertices_length]; decide
  exact ⟨le_refl 1, by decide, hl,
    (c4_vertex_layout player0).2.2.2.1 1 (le_refl 1) (by decide) hl⟩

/-- The empty mesh spawned by `setup`: `make_mesh(&[], vec![])`. -/
def mesh0 : Mesh := ⟨[], [], [], [], []⟩

theorem tailMeshColors_length :
    tailMeshColors.length = (TAIL_LEN - 1) * 4 - (TAIL_LEN - 2) := by
  simp only [tailMeshColors, List.length_ofFn]

theorem tailMeshColors_get (k : Nat)
    (hk : k < (TAIL_LEN - 1) * 4 - (TAIL_LEN - 2)) (hl : k < tailMeshColors.length) :
    tailMeshColors.get ⟨k, hl⟩ = colorAt ⟨k, hk⟩ :=
  List.get_ofFn colorAt ⟨k, hl⟩

/-- C9: the scalar weight list has one entry per vertex of the mesh; the
`TAIL_LEN` centerline entries get weight `1.0`, the `2 * (TAIL_LEN - 1)`
offset entries get weight `0.0`, and the builder's index list is unaffected
by the weights (it is `make_tail_indices` regardless). -/
theorem c9_scalar_weights (mesh : Mesh) (p : Player) :
    tailMeshColors.length = (tailMeshVertices p).length ∧
    (∀ i : Nat, (h : i < TAIL_LEN) → (hl : i < tailMeshColors.length) →
      tailMeshColors.get ⟨i, hl⟩ = 1) ∧
    (∀ i : Nat, (h : TAIL_LEN ≤ i) → (hl : i < tailMeshColors.length) →
      tailMeshColors.get ⟨i, hl⟩ = 0) ∧
    (make_tail_mesh mesh p).vertex_x = tailMeshColors ∧
    (make_tail_mesh mesh p).indices = make_tail_indices := by
  refine ⟨by rw [tailMeshColors_length, tailMeshVertices_length], ?_, ?_, rfl, rfl⟩
  · intro i h hl
    have hk : i < (TAIL_LEN - 1) * 4 - (TAIL_LEN - 2) := by
      have hc := hl; rwa [tailMeshColors_length] at hc
    rw [tailMeshColors_get i hk hl]
    simp only [colorAt]
    rw [if_pos (show (⟨i, hk⟩ : Fin ((TAIL_LEN - 1) * 4 - (TAIL_LEN - 2))).val < TAIL_LEN
          from h)]
  · intro i h hl
    have hk : i < (TAIL_LEN - 1) * 4 - (TAIL_LEN - 2) := by
      have hc := hl; rwa [tailMeshColors_length] at hc
    rw [tailMeshColors_get i hk hl]
    simp only [colorAt]
    rw [if_neg (show ¬ ((⟨i, hk⟩ : Fin ((TAIL_LEN - 1) * 4 - (TAIL_LEN - 2))).val < TAIL_LEN)
          from (by omega : ¬ (i < TAIL_LEN)))]

/-- Witness for C9: weight of the centerline vertex `0` is `1.0`, weight of
the offset vertex `40` is `0.0`. -/
theorem c9_scalar_weights_witness :
    (0 < TAIL_LEN ∧ 0 < tailMeshColors.length ∧
      tailMeshColors.get ⟨0, by rw [tailMeshColors_length]; decide⟩ = 1) ∧
    (TAIL_LEN ≤ 40 ∧ 40 < tailMeshColors.length ∧
      tailMeshColors.get ⟨40, by rw [tailMeshColors_length]; decide⟩ = 0) := by
  have hl0 : 0 < tailMeshColors.length := by rw [tailMeshColors_length]; decide
  have hl40 : 40 < tailMeshColors.length := by rw [tailMeshColors_length]; decide
  exact ⟨⟨by decide, hl0, (c9_scalar_weights mesh0 player0).2.1 0 (by decide) hl0⟩,
         ⟨by decide, hl40, (c9_scalar_weights mesh0 player0).2.2.1 40 (by decide) hl40⟩⟩
